import Mathlib

/-!
Shallow embedding of the chat subsystem of the wazeen accounting portal
(apps/chat: models.py, serializers.py, views.py, tasks.py), together with
theorems about its access model, message invariants, soft-deletion,
reactions, read tracking, editing, deletion and the export pipeline.
-/

namespace Wazeen

/-- User roles, from `authentication.User.ROLE_CHOICES`. -/
inductive Role
  | admin
  | accountant
  | client
deriving DecidableEq, Repr

/-- A user: identity, display name and role (`authentication.User`). -/
structure User where
  id : Nat
  full_name : String
  role : Role
deriving DecidableEq, Repr

/-- A service request: its client and the optionally assigned accountant
(`service_requests.ServiceRequest`). -/
structure ServiceRequest where
  client : User
  accountant : Option User
deriving DecidableEq, Repr

/-- A chat room is one-to-one with a service request (`chat.ChatRoom`). -/
structure ChatRoom where
  request : ServiceRequest
deriving DecidableEq, Repr

/-- `ChatRoom.can_user_access` from `apps/chat/models.py`:
admins always may; clients must be the request client; accountants must
be the assigned accountant (comparison with an unassigned accountant,
`None` in the source, is never equal to a user). -/
def ChatRoom.can_user_access (room : ChatRoom) (user : User) : Bool :=
  match user.role with
  | Role.admin => true
  | Role.client => decide (room.request.client = user)
  | Role.accountant => decide (room.request.accountant = some user)

/-- The invariant enforced by `ServiceRequest.clean` in
`apps/service_requests/models.py`: the client has the client role and an
assigned accountant has the accountant role. -/
def ServiceRequest.wellFormed (r : ServiceRequest) : Prop :=
  r.client.role = Role.client ∧ ∀ a, r.accountant = some a → a.role = Role.accountant

/-- C1: for a room over a well-formed request, `can_user_access` grants
access exactly to admins, the request client and the assigned accountant,
and denies every other principal. -/
theorem can_user_access_iff (room : ChatRoom) (user : User)
    (h : room.request.wellFormed) :
    room.can_user_access user = true ↔
      user.role = Role.admin ∨ user = room.request.client ∨
        room.request.accountant = some user := by
  obtain ⟨hc, ha⟩ := h
  unfold ChatRoom.can_user_access
  cases hrole : user.role with
  | admin => simp [hrole]
  | client =>
    simp only [decide_eq_true_eq]
    constructor
    · intro hcl
      exact Or.inr (Or.inl hcl.symm)
    · rintro (hadm | heq | hacc)
      · exact absurd hadm (by simp)
      · exact heq.symm
      · have := ha user hacc
        rw [hrole] at this
        exact absurd this (by simp)
  | accountant =>
    simp only [decide_eq_true_eq]
    constructor
    · intro hacc
      exact Or.inr (Or.inr hacc)
    · rintro (hadm | heq | hacc)
      · exact absurd hadm (by simp)
      · rw [heq] at hrole
        rw [hc] at hrole
        exact absurd hrole (by simp)
      · exact hacc

/-- Witness for C1 at a concrete room: the assigned accountant is granted
access. -/
theorem can_user_access_iff_witness :
    (ChatRoom.can_user_access
      ⟨⟨⟨1, "c", Role.client⟩, some ⟨2, "a", Role.accountant⟩⟩⟩
      ⟨2, "a", Role.accountant⟩ = true) ↔
      (Role.accountant = Role.admin ∨
        (⟨2, "a", Role.accountant⟩ : User) = ⟨1, "c", Role.client⟩ ∨
        (some ⟨2, "a", Role.accountant⟩ : Option User) = some ⟨2, "a", Role.accountant⟩) :=
  can_user_access_iff ⟨⟨⟨1, "c", Role.client⟩, some ⟨2, "a", Role.accountant⟩⟩⟩
    ⟨2, "a", Role.accountant⟩ (by constructor <;> simp)

/-- Message types, from `ChatMessage.MESSAGE_TYPES`. -/
inductive MessageType
  | text
  | file
  | system
  | image
  | document
deriving DecidableEq, Repr

/-- An uploaded file (`file_management.File`), reduced to the fields the
chat subsystem reads. -/
structure StoredFile where
  id : Nat
  mime_type : String
  filename : String
  is_deleted : Bool
deriving DecidableEq, Repr

/-- A chat message (`chat.ChatMessage`). -/
structure ChatMessage where
  id : Nat
  sender : User
  message_type : MessageType
  content : String
  file : Option StoredFile
  is_read : Bool
  is_deleted : Bool
  is_edited : Bool
  created_at : Int
  edited_at : Option Int
deriving DecidableEq, Repr

/-- Errors surfaced by the embedded operations: DRF or Django validation
errors, and permission rejections (HTTP 403 responses). -/
inductive Err
  | validationFailed (message : String)
  | permissionDenied (message : String)
deriving DecidableEq, Repr

/-- `ChatMessage.clean` from `apps/chat/models.py`: a file message needs a
file; text and system messages must not carry one. -/
def ChatMessage.clean (m : ChatMessage) : Except Err Unit :=
  if m.message_type = MessageType.file ∧ m.file = none then
    Except.error (Err.validationFailed "File is required for file messages")
  else if (m.message_type = MessageType.text ∨ m.message_type = MessageType.system) ∧
      m.file ≠ none then
    Except.error (Err.validationFailed "File should not be provided for text/system messages")
  else
    Except.ok ()

/-- Input accepted by `ChatMessageCreateSerializer`; an absent
`message_type` takes the model default `text`. -/
structure CreateMessageInput where
  message_type : MessageType
  content : String
  file_id : Option Nat
deriving DecidableEq, Repr

/-- `content.strip()` falsiness in Python: the string has no
non-whitespace character. -/
def isBlank (s : String) : Bool := s.data.all Char.isWhitespace

/-- `ChatMessageCreateSerializer.validate`: text and system messages need
non-blank content; file, image and document messages need a `file_id`. -/
def ChatMessageCreateSerializer.validate (input : CreateMessageInput) : Except Err Unit :=
  if (input.message_type = MessageType.text ∨ input.message_type = MessageType.system) ∧
      isBlank input.content = true then
    Except.error (Err.validationFailed "Content is required for text messages")
  else if (input.message_type = MessageType.file ∨ input.message_type = MessageType.image ∨
      input.message_type = MessageType.document) ∧ input.file_id = none then
    Except.error (Err.validationFailed "File is required for file messages")
  else
    Except.ok ()

/-- `File.objects.get(id=file_id, is_deleted=False)`. -/
def findFile (files : List StoredFile) (fid : Nat) : Option StoredFile :=
  files.find? (fun f => f.id == fid && !f.is_deleted)

/-- `ChatMessageCreateSerializer.create` followed by the model save (which
runs `ChatMessage.clean`): resolves the attachment, auto-upgrades a
default `text` type to `image` or `document` from the MIME type, and
stores the message only if `clean` passes. -/
def ChatMessageCreateSerializer.create (files : List StoredFile) (sender : User)
    (now : Int) (mid : Nat) (input : CreateMessageInput) : Except Err ChatMessage := do
  ChatMessageCreateSerializer.validate input
  let resolved : Option StoredFile × MessageType ←
    match input.file_id with
    | none => pure (none, input.message_type)
    | some fid =>
      match findFile files fid with
      | none => Except.error (Err.validationFailed "Invalid file ID")
      | some f =>
        if input.message_type = MessageType.text then
          if f.mime_type.startsWith "image/" then pure (some f, MessageType.image)
          else pure (some f, MessageType.document)
        else pure (some f, input.message_type)
  let m : ChatMessage :=
    { id := mid, sender := sender, message_type := resolved.2, content := input.content,
      file := resolved.1, is_read := false, is_deleted := false, is_edited := false,
      created_at := now, edited_at := none }
  ChatMessage.clean m
  pure m

/-- The type/attachment invariant of the spec: file, image and document
messages carry an attachment; text and system messages do not. -/
def ChatMessage.attachmentInvariant (m : ChatMessage) : Prop :=
  ((m.message_type = MessageType.file ∨ m.message_type = MessageType.image ∨
      m.message_type = MessageType.document) → m.file ≠ none) ∧
  ((m.message_type = MessageType.text ∨ m.message_type = MessageType.system) → m.file = none)

/-- C2: every message the creation pipeline stores satisfies the
type/attachment invariant, a file, image or document request without an
attachment is rejected with a validation error, and a system request with
an attachment is rejected with a validation error. -/
theorem chat_message_create_attachment (files : List StoredFile) (sender : User)
    (now : Int) (mid : Nat) (input : CreateMessageInput) :
    (∀ m, ChatMessageCreateSerializer.create files sender now mid input = Except.ok m →
        m.attachmentInvariant) ∧
    ((input.message_type = MessageType.file ∨ input.message_type = MessageType.image ∨
        input.message_type = MessageType.document) → input.file_id = none →
      ∃ s, ChatMessageCreateSerializer.create files sender now mid input =
        Except.error (Err.validationFailed s)) ∧
    (input.message_type = MessageType.system → input.file_id ≠ none →
      ∃ s, ChatMessageCreateSerializer.create files sender now mid input =
        Except.error (Err.validationFailed s)) := by
  obtain ⟨mt, content, fid⟩ := input
  refine ⟨?_, ?_, ?_⟩
  · intro m h
    unfold ChatMessageCreateSerializer.create ChatMessageCreateSerializer.validate
      ChatMessage.clean at h
    simp only [bind, Except.bind, pure, Except.pure] at h
    cases fid <;> cases mt <;>
      simp only [findFile] at h <;>
      (repeat' split at h) <;>
      (try simp_all [ChatMessage.attachmentInvariant]) <;>
      (try subst h) <;>
      (try simp_all [ChatMessage.attachmentInvariant])
  · intro hmt hfid
    subst hfid
    refine ⟨"File is required for file messages", ?_⟩
    unfold ChatMessageCreateSerializer.create ChatMessageCreateSerializer.validate
    simp only [bind, Except.bind]
    rcases hmt with h | h | h <;> subst h <;> simp
  · intro hmt hfid
    subst hmt
    cases fid with
    | none => exact absurd rfl hfid
    | some f =>
      unfold ChatMessageCreateSerializer.create ChatMessageCreateSerializer.validate
        ChatMessage.clean
      simp only [bind, Except.bind]
      by_cases hb : isBlank content = true
      · exact ⟨"Content is required for text messages", by simp [hb]⟩
      · cases hff : findFile files f with
        | none => exact ⟨"Invalid file ID", by simp [hb, hff]⟩
        | some fob =>
          exact ⟨"File should not be provided for text/system messages",
            by simp [hb, hff, pure, Except.pure]⟩

/-- Witness for C2: a plain text message is stored and satisfies the
invariant, and a file-type request without an attachment is rejected. -/
theorem chat_message_create_attachment_witness :
    ChatMessage.attachmentInvariant
      { id := 1, sender := ⟨1, "u", Role.client⟩, message_type := MessageType.text,
        content := "hello", file := none, is_read := false, is_deleted := false,
        is_edited := false, created_at := 0, edited_at := none } ∧
    ∃ s, ChatMessageCreateSerializer.create [] ⟨1, "u", Role.client⟩ 0 1
        ⟨MessageType.file, "x", none⟩ = Except.error (Err.validationFailed s) :=
  ⟨(chat_message_create_attachment [] ⟨1, "u", Role.client⟩ 0 1
      ⟨MessageType.text, "hello", none⟩).1 _ rfl,
   (chat_message_create_attachment [] ⟨1, "u", Role.client⟩ 0 1
      ⟨MessageType.file, "x", none⟩).2.1 (Or.inl rfl) rfl⟩

/-- Insertion step of ordering by `created_at` (the `order_by('created_at')`
of the message list and export querysets). -/
def insertByCreated (m : ChatMessage) : List ChatMessage → List ChatMessage
  | [] => [m]
  | x :: xs =>
    if m.created_at ≤ x.created_at then m :: x :: xs
    else x :: insertByCreated m xs

/-- Sort a message list by `created_at`. -/
def sortByCreated : List ChatMessage → List ChatMessage
  | [] => []
  | x :: xs => insertByCreated x (sortByCreated xs)

theorem mem_insertByCreated {x m : ChatMessage} {l : List ChatMessage} :
    x ∈ insertByCreated m l ↔ x = m ∨ x ∈ l := by
  induction l with
  | nil => simp [insertByCreated]
  | cons y ys ih =>
    unfold insertByCreated
    split
    · simp
    · simp only [List.mem_cons, ih]
      tauto

theorem mem_sortByCreated {x : ChatMessage} {l : List ChatMessage} :
    x ∈ sortByCreated l ↔ x ∈ l := by
  induction l with
  | nil => simp [sortByCreated]
  | cons y ys ih => simp [sortByCreated, mem_insertByCreated, ih]

theorem length_insertByCreated (m : ChatMessage) (l : List ChatMessage) :
    (insertByCreated m l).length = l.length + 1 := by
  induction l with
  | nil => rfl
  | cons y ys ih =>
    unfold insertByCreated
    split
    · simp
    · simp [ih]

theorem length_sortByCreated (l : List ChatMessage) :
    (sortByCreated l).length = l.length := by
  induction l with
  | nil => rfl
  | cons y ys ih => simp [sortByCreated, length_insertByCreated, ih]

theorem chain'_head_le {y : ChatMessage} {l : List ChatMessage}
    (h : List.Chain' (fun a b => a.created_at ≤ b.created_at) (y :: l)) :
    ∀ z ∈ l, y.created_at ≤ z.created_at := by
  induction l generalizing y with
  | nil =>
    intro z hz
    cases hz
  | cons w ws ih =>
    intro z hz
    have hyw : y.created_at ≤ w.created_at := (List.chain'_cons.mp h).1
    rcases List.mem_cons.mp hz with hz | hz
    · subst hz
      exact hyw
    · have hwz := ih (List.chain'_cons.mp h).2 z hz
      omega

theorem chain'_insertByCreated {m : ChatMessage} {l : List ChatMessage}
    (h : List.Chain' (fun a b => a.created_at ≤ b.created_at) l) :
    List.Chain' (fun a b => a.created_at ≤ b.created_at) (insertByCreated m l) := by
  induction l with
  | nil => simp [insertByCreated]
  | cons y ys ih =>
    unfold insertByCreated
    split
    · exact List.Chain'.cons (by omega) h
    · rename_i hlt
      have hys := h.tail
      have hy : ∀ z ∈ insertByCreated m ys, y.created_at ≤ z.created_at := by
        intro z hz
        rcases mem_insertByCreated.mp hz with hz | hz
        · subst hz
          omega
        · exact chain'_head_le h z hz
      cases hins : insertByCreated m ys with
      | nil => simp
      | cons z zs =>
        refine List.chain'_cons.mpr ⟨?_, ?_⟩
        · exact hy z (hins ▸ List.mem_cons_self _ _)
        · exact hins ▸ ih hys

theorem sorted_sortByCreated (l : List ChatMessage) :
    List.Chain' (fun a b => a.created_at ≤ b.created_at) (sortByCreated l) := by
  induction l with
  | nil => simp [sortByCreated]
  | cons y ys ih => exact chain'_insertByCreated ih

/-- `ChatMessageViewSet.get_queryset`: the room's messages with
`is_deleted=False` (access already granted). -/
def ChatMessageViewSet.get_queryset (msgs : List ChatMessage) : List ChatMessage :=
  msgs.filter (fun m => !m.is_deleted)

/-- Case-insensitive substring test (`content__icontains`). -/
def containsCI (s pat : String) : Bool :=
  (List.range (s.length + 1)).any (fun i => pat.toLower.isPrefixOf ((s.toLower).drop i))

/-- `search_messages` from `apps/chat/views.py`: non-deleted messages whose
content contains the query, most recent first, capped at 50. -/
def search_messages (msgs : List ChatMessage) (q : String) : List ChatMessage :=
  ((sortByCreated (msgs.filter (fun m => !m.is_deleted && containsCI m.content q))).reverse).take 50

/-- `ChatRoomSerializer.get_last_message`: last non-deleted message in
default (creation) order. -/
def get_last_message (msgs : List ChatMessage) : Option ChatMessage :=
  (sortByCreated (msgs.filter (fun m => !m.is_deleted))).getLast?

/-- `ChatRoom.get_unread_count`: unread messages not sent by the user;
note the query does not filter on the deleted flag. -/
def ChatRoom.get_unread_count (msgs : List ChatMessage) (user : User) : Nat :=
  (msgs.filter (fun m => !m.is_read && !decide (m.sender = user))).length

/-- A chat participant (`chat.ChatParticipant`): read/presence state of a
user in a room. -/
structure ChatParticipant where
  user : User
  last_read_message : Option ChatMessage
  last_seen : Int
deriving DecidableEq, Repr

/-- `ChatParticipant.get_unread_count`: messages created after the
last-read message, excluding the user's own; with no pointer, all foreign
messages count. The deleted flag again is not filtered. -/
def ChatParticipant.get_unread_count (p : ChatParticipant) (msgs : List ChatMessage) : Nat :=
  match p.last_read_message with
  | none => (msgs.filter (fun m => !decide (m.sender = p.user))).length
  | some lm =>
    (msgs.filter (fun m =>
      decide (lm.created_at < m.created_at) && !decide (m.sender = p.user))).length

/-- The per-row effect of the `update(is_read=True)` queryset in
`mark_as_read`: rows up to the given message, from other senders, get
their read flag set. -/
def markReadUpdate (u : User) (upto : ChatMessage) (x : ChatMessage) : ChatMessage :=
  if x.created_at ≤ upto.created_at ∧ x.sender ≠ u then { x with is_read := true } else x

/-- `ChatParticipant.mark_as_read`: unconditionally repoint
`last_read_message`, stamp `last_seen`, and flag every message up to the
given one (other senders only) as read. -/
def ChatParticipant.mark_as_read (p : ChatParticipant) (msgs : List ChatMessage)
    (m : ChatMessage) (now : Int) : ChatParticipant × List ChatMessage :=
  ({ p with last_read_message := some m, last_seen := now },
   msgs.map (markReadUpdate p.user m))

@[simp] theorem markReadUpdate_created_at (u : User) (upto x : ChatMessage) :
    (markReadUpdate u upto x).created_at = x.created_at := by
  unfold markReadUpdate
  split <;> rfl

@[simp] theorem markReadUpdate_sender (u : User) (upto x : ChatMessage) :
    (markReadUpdate u upto x).sender = x.sender := by
  unfold markReadUpdate
  split <;> rfl

/-- The export queryset filter in `export_chat_messages`: non-deleted and
inside the optional date range (`created_at__gte` / `created_at__lte`). -/
def exportFilter (dateFrom dateTo : Option Int) (m : ChatMessage) : Bool :=
  !m.is_deleted &&
    (match dateFrom with
      | none => true
      | some d => decide (d ≤ m.created_at)) &&
    (match dateTo with
      | none => true
      | some d => decide (m.created_at ≤ d))

/-- The message set the export job renders: filtered queryset ordered by
`created_at`. -/
def exportMessages (msgs : List ChatMessage) (dateFrom dateTo : Option Int) :
    List ChatMessage :=
  sortByCreated (msgs.filter (exportFilter dateFrom dateTo))

/-- C3 fails on the code: a soft-deleted message is dropped from the
message queryset, yet both unread-count computations still count it. -/
theorem soft_delete_unread_counterexample :
    ({ id := 10, sender := ⟨2, "bob", Role.accountant⟩, message_type := MessageType.text,
        content := "gone", file := none, is_read := false, is_deleted := true,
        is_edited := false, created_at := 5, edited_at := none } : ChatMessage).is_deleted
        = true ∧
    ChatMessageViewSet.get_queryset
      [{ id := 10, sender := ⟨2, "bob", Role.accountant⟩, message_type := MessageType.text,
          content := "gone", file := none, is_read := false, is_deleted := true,
          is_edited := false, created_at := 5, edited_at := none }] = [] ∧
    ChatRoom.get_unread_count
      [{ id := 10, sender := ⟨2, "bob", Role.accountant⟩, message_type := MessageType.text,
          content := "gone", file := none, is_read := false, is_deleted := true,
          is_edited := false, created_at := 5, edited_at := none }]
      ⟨1, "alice", Role.client⟩ = 1 ∧
    ChatParticipant.get_unread_count ⟨⟨1, "alice", Role.client⟩, none, 0⟩
      [{ id := 10, sender := ⟨2, "bob", Role.accountant⟩, message_type := MessageType.text,
          content := "gone", file := none, is_read := false, is_deleted := true,
          is_edited := false, created_at := 5, edited_at := none }] = 1 := by
  decide

/-- C3 amended: soft deletion hides a message from the listing queryset,
search, export and last-message lookup, but a deleted message still adds
to both unread-count computations. -/
theorem soft_delete_read_paths :
    (∀ (msgs : List ChatMessage) (m : ChatMessage),
        m ∈ ChatMessageViewSet.get_queryset msgs → m.is_deleted = false) ∧
    (∀ (msgs : List ChatMessage) (q : String) (m : ChatMessage),
        m ∈ search_messages msgs q → m.is_deleted = false) ∧
    (∀ (msgs : List ChatMessage) (dF dT : Option Int) (m : ChatMessage),
        m ∈ exportMessages msgs dF dT → m.is_deleted = false) ∧
    (∀ (msgs : List ChatMessage) (m : ChatMessage),
        get_last_message msgs = some m → m.is_deleted = false) ∧
    (∀ (msgs : List ChatMessage) (u : User) (dm : ChatMessage),
        dm.is_deleted = true → dm.is_read = false → dm.sender ≠ u →
        ChatRoom.get_unread_count (dm :: msgs) u = ChatRoom.get_unread_count msgs u + 1) ∧
    (∀ (p : ChatParticipant) (msgs : List ChatMessage) (dm lm : ChatMessage),
        p.last_read_message = some lm → dm.is_deleted = true →
        lm.created_at < dm.created_at → dm.sender ≠ p.user →
        p.get_unread_count (dm :: msgs) = p.get_unread_count msgs + 1) := by
  refine ⟨?_, ?_, ?_, ?_, ?_, ?_⟩
  · intro msgs m hm
    have := (List.mem_filter.mp hm).2
    simpa using this
  · intro msgs q m hm
    have hm₁ : m ∈ (sortByCreated
        (msgs.filter (fun m => !m.is_deleted && containsCI m.content q))).reverse :=
      List.mem_of_mem_take hm
    have hm₂ := mem_sortByCreated.mp (List.mem_reverse.mp hm₁)
    have := (List.mem_filter.mp hm₂).2
    simp at this
    exact this.1
  · intro msgs dF dT m hm
    have hm₂ := mem_sortByCreated.mp hm
    have := (List.mem_filter.mp hm₂).2
    unfold exportFilter at this
    simp at this
    exact this.1.1
  · intro msgs m hm
    have hm₂ := mem_sortByCreated.mp (List.mem_of_getLast?_eq_some hm)
    have := (List.mem_filter.mp hm₂).2
    simpa using this
  · intro msgs u dm hdel hread hsend
    unfold ChatRoom.get_unread_count
    rw [List.filter_cons]
    simp [hread, hsend]
  · intro p msgs dm lm hlast hdel hlt hsend
    unfold ChatParticipant.get_unread_count
    rw [hlast]
    rw [List.filter_cons]
    simp [hlt, hsend]

/-- Witness for C3 amended, at a one-deleted-message room state. -/
theorem soft_delete_read_paths_witness :
    ChatRoom.get_unread_count
      [{ id := 3, sender := ⟨4, "dan", Role.client⟩, message_type := MessageType.text,
          content := "x", file := none, is_read := false, is_deleted := true,
          is_edited := false, created_at := 9, edited_at := none }]
      ⟨5, "eve", Role.accountant⟩
      = ChatRoom.get_unread_count [] ⟨5, "eve", Role.accountant⟩ + 1 :=
  soft_delete_read_paths.2.2.2.2.1 [] ⟨5, "eve", Role.accountant⟩
    { id := 3, sender := ⟨4, "dan", Role.client⟩, message_type := MessageType.text,
      content := "x", file := none, is_read := false, is_deleted := true,
      is_edited := false, created_at := 9, edited_at := none }
    rfl rfl (by decide)

/-- A message reaction row (`chat.MessageReaction`). -/
structure MessageReaction where
  message : Nat
  user : User
  emoji : String
  created_at : Int
deriving DecidableEq, Repr

/-- `MessageReactionCreateSerializer.create`: delete any existing row with
the same (message, user, emoji) triple, then insert the new row. -/
def MessageReactionCreateSerializer.create (st : List MessageReaction) (mid : Nat)
    (u : User) (e : String) (now : Int) : List MessageReaction :=
  (st.filter (fun r =>
      !(r.message == mid && decide (r.user = u) && r.emoji == e))) ++
    [{ message := mid, user := u, emoji := e, created_at := now }]

/-- Number of stored reaction rows with the given
(message, user, emoji) triple. -/
def reactionRows (st : List MessageReaction) (mid : Nat) (u : User) (e : String) : Nat :=
  (st.filter (fun r => r.message == mid && decide (r.user = u) && r.emoji == e)).length

theorem reactionRows_create (st : List MessageReaction) (mid : Nat) (u : User)
    (e : String) (t : Int) :
    reactionRows (MessageReactionCreateSerializer.create st mid u e t) mid u e = 1 := by
  unfold reactionRows MessageReactionCreateSerializer.create
  rw [List.filter_append, List.filter_filter]
  have hnil : st.filter (fun r =>
      (r.message == mid && decide (r.user = u) && r.emoji == e) &&
        !(r.message == mid && decide (r.user = u) && r.emoji == e)) = [] := by
    rw [List.filter_eq_nil_iff]
    intro r _
    cases r.message == mid && decide (r.user = u) && r.emoji == e <;> simp
  rw [hnil]
  simp

/-- C4: adding the same (message, user, emoji) reaction twice leaves
exactly one stored row for that triple. -/
theorem react_idempotent (st : List MessageReaction) (mid : Nat) (u : User)
    (e : String) (t1 t2 : Int) :
    reactionRows
      (MessageReactionCreateSerializer.create
        (MessageReactionCreateSerializer.create st mid u e t1) mid u e t2) mid u e = 1 :=
  reactionRows_create _ mid u e t2

theorem countP_add_one_le {α : Type} {p q : α → Bool} {l : List α} {a : α}
    (hsub : ∀ x ∈ l, p x = true → q x = true) (ha : a ∈ l) (hqa : q a = true)
    (hpa : p a = false) :
    l.countP p + 1 ≤ l.countP q := by
  induction l with
  | nil => cases ha
  | cons b bs ih =>
    rw [List.countP_cons, List.countP_cons]
    rcases List.mem_cons.mp ha with hab | hmem
    · subst hab
      have hmono := List.countP_mono_left
        (fun x hx => hsub x (List.mem_cons_of_mem _ hx))
      simp only [hpa, hqa]
      simp only [Bool.false_eq_true, if_false, if_true]
      omega
    · have htail := ih (fun x hx => hsub x (List.mem_cons_of_mem _ hx)) hmem
      have hb : (if p b = true then 1 else 0) ≤ (if q b = true then 1 else 0) := by
        by_cases hpb : p b = true
        · rw [hsub b (List.mem_cons_self _ _) hpb]
          simp [hpb]
        · simp [hpb]
      omega

/-- Fixtures for the mark-as-read scenario: a reader and two foreign
messages at times 1 and 2. -/
def cAlice : User := ⟨1, "alice", Role.client⟩

def cBob : User := ⟨2, "bob", Role.accountant⟩

def cMsg1 : ChatMessage :=
  { id := 1, sender := cBob, message_type := MessageType.text, content := "first",
    file := none, is_read := false, is_deleted := false, is_edited := false,
    created_at := 1, edited_at := none }

def cMsg2 : ChatMessage :=
  { id := 2, sender := cBob, message_type := MessageType.text, content := "second",
    file := none, is_read := false, is_deleted := false, is_edited := false,
    created_at := 2, edited_at := none }

def cParticipant : ChatParticipant := ⟨cAlice, none, 0⟩

/-- State after marking read up to the later message. -/
def cAfterLater : ChatParticipant × List ChatMessage :=
  cParticipant.mark_as_read [cMsg1, cMsg2] cMsg2 10

/-- State after then marking read up to the earlier message. -/
def cAfterEarlier : ChatParticipant × List ChatMessage :=
  cAfterLater.1.mark_as_read cAfterLater.2 cMsg1 11

/-- C5 fails on the code: marking the earlier message as read after the
later one raises the derived unread count from 0 to 1. -/
theorem mark_as_read_monotonic_counterexample :
    cAfterLater.1.get_unread_count cAfterLater.2 = 0 ∧
    cAfterEarlier.1.get_unread_count cAfterEarlier.2 = 1 ∧
    ¬(cAfterEarlier.1.get_unread_count cAfterEarlier.2 ≤
        cAfterLater.1.get_unread_count cAfterLater.2) := by
  decide

/-- C5 amended: `mark_as_read` unconditionally overwrites the last-read
pointer (an out-of-order call is not a no-op), the per-message read flags
are monotonic, and an out-of-order call with an earlier message strictly
increases the derived unread count whenever a foreign message lies after
the earlier one. -/
theorem mark_as_read_not_monotonic :
    (∀ (p : ChatParticipant) (msgs : List ChatMessage) (m : ChatMessage) (now : Int),
        (p.mark_as_read msgs m now).1.last_read_message = some m ∧
        (p.mark_as_read msgs m now).1.last_seen = now ∧
        (p.mark_as_read msgs m now).2.length = msgs.length) ∧
    (∀ (p : ChatParticipant) (msgs : List ChatMessage) (m : ChatMessage) (now : Int)
        (i : Nat) (h1 : i < msgs.length) (h2 : i < (p.mark_as_read msgs m now).2.length),
        msgs[i].is_read = true → ((p.mark_as_read msgs m now).2)[i].is_read = true) ∧
    (∀ (p : ChatParticipant) (msgs : List ChatMessage) (m1 m2 : ChatMessage) (t1 t2 : Int),
        m2 ∈ msgs → m2.sender ≠ p.user → m1.created_at < m2.created_at →
        (p.mark_as_read msgs m2 t1).1.get_unread_count (p.mark_as_read msgs m2 t1).2 + 1 ≤
          ((p.mark_as_read msgs m2 t1).1.mark_as_read
              (p.mark_as_read msgs m2 t1).2 m1 t2).1.get_unread_count
            ((p.mark_as_read msgs m2 t1).1.mark_as_read
              (p.mark_as_read msgs m2 t1).2 m1 t2).2) := by
  refine ⟨?_, ?_, ?_⟩
  · intro p msgs m now
    exact ⟨rfl, rfl, by simp [ChatParticipant.mark_as_read]⟩
  · intro p msgs m now i h1 h2 hread
    simp only [ChatParticipant.mark_as_read, List.getElem_map]
    unfold markReadUpdate
    split <;> simp [hread]
  · intro p msgs m1 m2 t1 t2 hmem hsender hlt
    simp only [ChatParticipant.mark_as_read, ChatParticipant.get_unread_count]
    rw [← List.countP_eq_length_filter, ← List.countP_eq_length_filter]
    rw [List.countP_map, List.countP_map, List.countP_map]
    simp only [Function.comp_def, markReadUpdate_created_at, markReadUpdate_sender]
    refine countP_add_one_le (a := m2) ?_ hmem ?_ ?_
    · intro x _ hx
      simp only [Bool.and_eq_true, decide_eq_true_eq, Bool.not_eq_eq_eq_not,
        Bool.not_true, decide_eq_false_iff_not] at hx ⊢
      refine ⟨by omega, hx.2⟩
    · simp only [Bool.and_eq_true, decide_eq_true_eq, Bool.not_eq_eq_eq_not,
        Bool.not_true, decide_eq_false_iff_not]
      exact ⟨hlt, hsender⟩
    · simp

/-- Witness for C5 amended at the two-message fixture. -/
theorem mark_as_read_not_monotonic_witness :
    cAfterLater.1.get_unread_count cAfterLater.2 + 1 ≤
      cAfterEarlier.1.get_unread_count cAfterEarlier.2 :=
  mark_as_read_not_monotonic.2.2 cParticipant [cMsg1, cMsg2] cMsg1 cMsg2 10 11
    (by decide) (by decide) (by decide)

/-- `ChatMessage.can_user_edit`: never for system messages; otherwise only
the sender, within 15 minutes (here 900 time units) of creation. -/
def ChatMessage.can_user_edit (msg : ChatMessage) (user : User) (now : Int) : Bool :=
  if msg.message_type = MessageType.system then false
  else decide (msg.sender = user) && decide (msg.created_at > now - 900)

/-- `ChatMessageUpdateSerializer.update` followed by the model save: reject
when `can_user_edit` fails (a DRF validation error), otherwise store the
new content with the edited flag set and the edit time stamped. -/
def ChatMessageUpdateSerializer.update (msg : ChatMessage) (editor : User)
    (newContent : String) (now : Int) : Except Err ChatMessage :=
  if msg.can_user_edit editor now then
    Except.ok { msg with content := newContent, is_edited := true, edited_at := some now }
  else
    Except.error (Err.validationFailed "Cannot edit this message")

theorem can_user_edit_iff (msg : ChatMessage) (user : User) (now : Int) :
    msg.can_user_edit user now = true ↔
      (msg.message_type ≠ MessageType.system ∧ msg.sender = user ∧
        msg.created_at > now - 900) := by
  unfold ChatMessage.can_user_edit
  split
  · rename_i hsys
    simp [hsys]
  · rename_i hsys
    simp [hsys]
    try tauto

/-- C6 fails on the code in its error taxonomy: an edit by a non-sender is
rejected with a DRF validation error, not a permission-denied error. -/
theorem edit_permission_error_counterexample :
    ChatMessageUpdateSerializer.update
      { id := 7, sender := cAlice, message_type := MessageType.text, content := "orig",
        file := none, is_read := false, is_deleted := false, is_edited := false,
        created_at := 0, edited_at := none } cBob "new" 10
      = Except.error (Err.validationFailed "Cannot edit this message") ∧
    ∀ s, ChatMessageUpdateSerializer.update
      { id := 7, sender := cAlice, message_type := MessageType.text, content := "orig",
        file := none, is_read := false, is_deleted := false, is_edited := false,
        created_at := 0, edited_at := none } cBob "new" 10
      ≠ Except.error (Err.permissionDenied s) := by
  have h : ChatMessageUpdateSerializer.update
      { id := 7, sender := cAlice, message_type := MessageType.text, content := "orig",
        file := none, is_read := false, is_deleted := false, is_edited := false,
        created_at := 0, edited_at := none } cBob "new" 10
      = Except.error (Err.validationFailed "Cannot edit this message") := rfl
  refine ⟨h, ?_⟩
  intro s hs
  rw [h] at hs
  simp at hs

/-- C6 amended: an edit succeeds exactly when the editor is the sender,
the message is within the 15-minute window and is not a system message;
success sets the edited flag, stamps the edit time and stores the new
content; every failing edit is rejected with the validation error
`Cannot edit this message`. -/
theorem edit_message_policy (msg : ChatMessage) (editor : User) (c : String) (now : Int) :
    ((∃ m', ChatMessageUpdateSerializer.update msg editor c now = Except.ok m') ↔
      (msg.message_type ≠ MessageType.system ∧ msg.sender = editor ∧
        msg.created_at > now - 900)) ∧
    (∀ m', ChatMessageUpdateSerializer.update msg editor c now = Except.ok m' →
        m'.is_edited = true ∧ m'.edited_at = some now ∧ m'.content = c) ∧
    (¬(msg.message_type ≠ MessageType.system ∧ msg.sender = editor ∧
        msg.created_at > now - 900) →
      ChatMessageUpdateSerializer.update msg editor c now =
        Except.error (Err.validationFailed "Cannot edit this message")) := by
  by_cases hedit : msg.can_user_edit editor now = true
  · have hconds := (can_user_edit_iff msg editor now).mp hedit
    refine ⟨?_, ?_, ?_⟩
    · simp [ChatMessageUpdateSerializer.update, hedit, hconds]
    · intro m' hm'
      simp [ChatMessageUpdateSerializer.update, hedit] at hm'
      subst hm'
      exact ⟨rfl, rfl, rfl⟩
    · intro hno
      exact absurd hconds hno
  · have hconds : ¬(msg.message_type ≠ MessageType.system ∧ msg.sender = editor ∧
        msg.created_at > now - 900) := fun hc =>
      hedit ((can_user_edit_iff msg editor now).mpr hc)
    refine ⟨?_, ?_, ?_⟩
    · simp only [ChatMessageUpdateSerializer.update, if_neg hedit]
      constructor
      · rintro ⟨m', hm'⟩
        simp at hm'
      · intro hc
        exact absurd hc hconds
    · intro m' hm'
      simp [ChatMessageUpdateSerializer.update, hedit] at hm'
    · intro _
      simp [ChatMessageUpdateSerializer.update, hedit]

/-- Witness for C6 amended: a fresh self-edit succeeds. -/
theorem edit_message_policy_witness :
    ∃ m', ChatMessageUpdateSerializer.update
      { id := 8, sender := cAlice, message_type := MessageType.text, content := "orig",
        file := none, is_read := false, is_deleted := false, is_edited := false,
        created_at := 100, edited_at := none } cAlice "new" 200 = Except.ok m' :=
  (edit_message_policy
    { id := 8, sender := cAlice, message_type := MessageType.text, content := "orig",
      file := none, is_read := false, is_deleted := false, is_edited := false,
      created_at := 100, edited_at := none } cAlice "new" 200).1.mpr
    ⟨by decide, rfl, by decide⟩

/-- `ChatRoomListCreateView.get_queryset`: admins see every room, clients
their own rooms, and accountants their assigned rooms plus every room
whose request has no assigned accountant. -/
def ChatRoomListCreateView.get_queryset (rooms : List ChatRoom) (user : User) :
    List ChatRoom :=
  match user.role with
  | Role.admin => rooms
  | Role.client => rooms.filter (fun r => decide (r.request.client = user))
  | Role.accountant => rooms.filter (fun r =>
      decide (r.request.accountant = some user) || decide (r.request.accountant = none))

/-- C9: an accountant's room listing contains every unassigned room even
though the access model denies that same pair, and it also contains every
room the access model grants — the listed set strictly exceeds the
granted set whenever an unassigned room exists. -/
theorem accountant_listing_exceeds_access (rooms : List ChatRoom) (user : User)
    (room : ChatRoom) (hrole : user.role = Role.accountant)
    (hnull : room.request.accountant = none) (hmem : room ∈ rooms) :
    room ∈ ChatRoomListCreateView.get_queryset rooms user ∧
    room.can_user_access user = false ∧
    (∀ r ∈ rooms, r.can_user_access user = true →
        r ∈ ChatRoomListCreateView.get_queryset rooms user) := by
  refine ⟨?_, ?_, ?_⟩
  · unfold ChatRoomListCreateView.get_queryset
    rw [hrole]
    exact List.mem_filter.mpr ⟨hmem, by simp [hnull]⟩
  · unfold ChatRoom.can_user_access
    rw [hrole]
    simp [hnull]
  · intro r hr hacc
    unfold ChatRoom.can_user_access at hacc
    rw [hrole] at hacc
    unfold ChatRoomListCreateView.get_queryset
    rw [hrole]
    refine List.mem_filter.mpr ⟨hr, ?_⟩
    simp only [decide_eq_true_eq] at hacc
    simp [hacc]

/-- Witness for C9 at a one-room state with an unassigned request. -/
theorem accountant_listing_exceeds_access_witness :
    (⟨⟨⟨1, "c", Role.client⟩, none⟩⟩ : ChatRoom) ∈
      ChatRoomListCreateView.get_queryset [⟨⟨⟨1, "c", Role.client⟩, none⟩⟩]
        ⟨9, "carl", Role.accountant⟩ ∧
    ChatRoom.can_user_access ⟨⟨⟨1, "c", Role.client⟩, none⟩⟩
      ⟨9, "carl", Role.accountant⟩ = false ∧
    (∀ r ∈ [(⟨⟨⟨1, "c", Role.client⟩, none⟩⟩ : ChatRoom)],
        r.can_user_access ⟨9, "carl", Role.accountant⟩ = true →
        r ∈ ChatRoomListCreateView.get_queryset [⟨⟨⟨1, "c", Role.client⟩, none⟩⟩]
          ⟨9, "carl", Role.accountant⟩) :=
  accountant_listing_exceeds_access [⟨⟨⟨1, "c", Role.client⟩, none⟩⟩]
    ⟨9, "carl", Role.accountant⟩ ⟨⟨⟨1, "c", Role.client⟩, none⟩⟩
    rfl rfl (by decide)

/-- `ChatMessage.can_user_delete`: never for system messages; otherwise
the sender or any admin. -/
def ChatMessage.can_user_delete (msg : ChatMessage) (user : User) : Bool :=
  if msg.message_type = MessageType.system then false
  else decide (msg.sender = user) || decide (user.role = Role.admin)

/-- `ChatMessageViewSet.destroy`: soft delete when permitted, otherwise a
403 response (`You cannot delete this message`). -/
def ChatMessageViewSet.destroy (msg : ChatMessage) (user : User) : Except Err ChatMessage :=
  if msg.can_user_delete user then
    Except.ok { msg with is_deleted := true }
  else
    Except.error (Err.permissionDenied "You cannot delete this message")

/-- C10: a system message is deletable by nobody — the permission check is
false for every user and `destroy` answers with the permission error. -/
theorem system_message_never_deletable (msg : ChatMessage) (user : User)
    (hsys : msg.message_type = MessageType.system) :
    msg.can_user_delete user = false ∧
    ChatMessageViewSet.destroy msg user =
      Except.error (Err.permissionDenied "You cannot delete this message") := by
  have h : msg.can_user_delete user = false := by
    simp [ChatMessage.can_user_delete, hsys]
  exact ⟨h, by simp [ChatMessageViewSet.destroy, h]⟩

/-- Witness for C10: even an admin who sent the system message cannot
delete it. -/
theorem system_message_never_deletable_witness :
    ChatMessage.can_user_delete
      { id := 30, sender := ⟨3, "root", Role.admin⟩, message_type := MessageType.system,
        content := "sys", file := none, is_read := false, is_deleted := false,
        is_edited := false, created_at := 0, edited_at := none }
      ⟨3, "root", Role.admin⟩ = false ∧
    ChatMessageViewSet.destroy
      { id := 30, sender := ⟨3, "root", Role.admin⟩, message_type := MessageType.system,
        content := "sys", file := none, is_read := false, is_deleted := false,
        is_edited := false, created_at := 0, edited_at := none }
      ⟨3, "root", Role.admin⟩ =
      Except.error (Err.permissionDenied "You cannot delete this message") :=
  system_message_never_deletable
    { id := 30, sender := ⟨3, "root", Role.admin⟩, message_type := MessageType.system,
      content := "sys", file := none, is_read := false, is_deleted := false,
      is_edited := false, created_at := 0, edited_at := none }
    ⟨3, "root", Role.admin⟩ rfl

/-- How one invocation of the `export_chat_messages` task can fail:
`ChatRoom.DoesNotExist` / `User.DoesNotExist`, the `can_user_access`
rejection, or any other exception (storage, mail, ...). -/
inductive ExportFailure
  | objectNotFound
  | accessDenied
  | transient
deriving DecidableEq, Repr

/-- The observable outcome of one task invocation. -/
inductive ExportStep
  | completed
  | errorNotified
  | retryScheduled (countdown : Nat)
deriving DecidableEq, Repr

/-- `max_retries=3` on the `shared_task` decorator. -/
def export_max_retries : Nat := 3

/-- One invocation of `export_chat_messages` given the failure it runs
into (if any) and the current retry count: not-found and access-denied
paths notify and return; any other exception notifies and, below the
retry cap, re-raises with `countdown=60 * 2 ** retries`. -/
def export_chat_messages_attempt (failure : Option ExportFailure) (retries : Nat) :
    ExportStep :=
  match failure with
  | none => ExportStep.completed
  | some ExportFailure.objectNotFound => ExportStep.errorNotified
  | some ExportFailure.accessDenied => ExportStep.errorNotified
  | some ExportFailure.transient =>
    if retries < export_max_retries then ExportStep.retryScheduled (60 * 2 ^ retries)
    else ExportStep.errorNotified

/-- The full task history under a constant per-attempt failure, starting
from the given retry count with enough fuel. -/
def exportRunFrom (failure : Option ExportFailure) (retries fuel : Nat) :
    List ExportStep :=
  match fuel with
  | 0 => []
  | fuel + 1 =>
    match export_chat_messages_attempt failure retries with
    | ExportStep.retryScheduled c =>
      ExportStep.retryScheduled c :: exportRunFrom failure (retries + 1) fuel
    | step => [step]

/-- The task history of a fresh export job. -/
def exportRun (failure : Option ExportFailure) : List ExportStep :=
  exportRunFrom failure 0 5

/-- C7: a missing room or user is terminal (one error notification, never
a retry) at every retry count, an access rejection likewise, while a
persistent transient failure is retried exactly 3 times with backoffs of
60, 120 and 240 seconds before the terminal failure notification; a
failure-free run completes at once. -/
theorem export_failure_handling :
    (∀ retries, export_chat_messages_attempt (some ExportFailure.objectNotFound) retries =
        ExportStep.errorNotified) ∧
    (∀ retries, export_chat_messages_attempt (some ExportFailure.accessDenied) retries =
        ExportStep.errorNotified) ∧
    exportRun (some ExportFailure.objectNotFound) = [ExportStep.errorNotified] ∧
    exportRun (some ExportFailure.accessDenied) = [ExportStep.errorNotified] ∧
    exportRun (some ExportFailure.transient) =
      [ExportStep.retryScheduled 60, ExportStep.retryScheduled 120,
        ExportStep.retryScheduled 240, ExportStep.errorNotified] ∧
    exportRun none = [ExportStep.completed] := by
  refine ⟨fun retries => rfl, fun retries => rfl, rfl, rfl, ?_, rfl⟩
  decide

/-- One reaction as rendered by `ChatMessageExportSerializer.get_reactions`. -/
structure ReactionExport where
  emoji : String
  user_name : String
  created_at : Int
deriving DecidableEq, Repr

/-- `obj.reactions.all()`: the reaction rows of one message. -/
def reactionsFor (reactions : List MessageReaction) (mid : Nat) : List MessageReaction :=
  reactions.filter (fun r => r.message == mid)

/-- One message as rendered by `ChatMessageExportSerializer`. -/
structure ExportEntry where
  id : Nat
  message_type : MessageType
  content : String
  sender_name : String
  sender_role : Role
  file_name : Option String
  is_edited : Bool
  created_at : Int
  reactions : List ReactionExport
deriving DecidableEq, Repr

/-- `ChatMessageExportSerializer` applied to one message. -/
def ChatMessageExportSerializer.serialize (reactions : List MessageReaction)
    (m : ChatMessage) : ExportEntry :=
  { id := m.id, message_type := m.message_type, content := m.content,
    sender_name := m.sender.full_name, sender_role := m.sender.role,
    file_name := m.file.map (fun f => f.filename),
    is_edited := m.is_edited, created_at := m.created_at,
    reactions := (reactionsFor reactions m.id).map
      (fun r => { emoji := r.emoji, user_name := r.user.full_name,
                  created_at := r.created_at }) }

/-- The JSON values `json.dumps` renders in `export_as_json`. -/
inductive Json
  | null
  | bool (b : Bool)
  | num (n : Int)
  | str (s : String)
  | arr (items : List Json)
  | obj (fields : List (String × Json))

/-- The serialized role name (`sender.role` CharField value). -/
def Role.toName : Role → String
  | Role.admin => "admin"
  | Role.accountant => "accountant"
  | Role.client => "client"

def Role.ofName (s : String) : Option Role :=
  if s = "admin" then some Role.admin
  else if s = "accountant" then some Role.accountant
  else if s = "client" then some Role.client
  else none

/-- The serialized message-type name (`message_type` CharField value). -/
def MessageType.toName : MessageType → String
  | MessageType.text => "text"
  | MessageType.file => "file"
  | MessageType.system => "system"
  | MessageType.image => "image"
  | MessageType.document => "document"

def MessageType.ofName (s : String) : Option MessageType :=
  if s = "text" then some MessageType.text
  else if s = "file" then some MessageType.file
  else if s = "system" then some MessageType.system
  else if s = "image" then some MessageType.image
  else if s = "document" then some MessageType.document
  else none

def ReactionExport.toJson (r : ReactionExport) : Json :=
  Json.obj [("emoji", Json.str r.emoji), ("user_name", Json.str r.user_name),
    ("created_at", Json.num r.created_at)]

def ExportEntry.toJson (e : ExportEntry) : Json :=
  Json.obj [("id", Json.num e.id), ("message_type", Json.str e.message_type.toName),
    ("content", Json.str e.content), ("sender_name", Json.str e.sender_name),
    ("sender_role", Json.str e.sender_role.toName),
    ("file_name", match e.file_name with
      | none => Json.null
      | some f => Json.str f),
    ("is_edited", Json.bool e.is_edited), ("created_at", Json.num e.created_at),
    ("reactions", Json.arr (e.reactions.map ReactionExport.toJson))]

/-- `export_as_json`: room metadata (with the serialized message count)
plus the message array, as one JSON document. -/
def export_as_json (messages : List ExportEntry) (exported_by : String) : Json :=
  Json.obj [("room_info",
      Json.obj [("exported_by", Json.str exported_by),
        ("message_count", Json.num messages.length)]),
    ("messages", Json.arr (messages.map ExportEntry.toJson))]

def Json.getField (j : Json) (k : String) : Option Json :=
  match j with
  | Json.obj fields => fields.lookup k
  | _ => none

def Json.asStr : Json → Option String
  | Json.str s => some s
  | _ => none

def Json.asNum : Json → Option Int
  | Json.num n => some n
  | _ => none

def Json.asBool : Json → Option Bool
  | Json.bool b => some b
  | _ => none

def Json.asArr : Json → Option (List Json)
  | Json.arr xs => some xs
  | _ => none

def Json.asOptStr : Json → Option (Option String)
  | Json.null => some none
  | Json.str s => some (some s)
  | _ => none

/-- Decode each element, failing if any element fails. -/
def mapMOption {α β : Type} (f : α → Option β) : List α → Option (List β)
  | [] => some []
  | x :: xs => do
    let y ← f x
    let ys ← mapMOption f xs
    pure (y :: ys)

def ReactionExport.ofJson (j : Json) : Option ReactionExport := do
  let e ← j.getField "emoji" >>= Json.asStr
  let u ← j.getField "user_name" >>= Json.asStr
  let c ← j.getField "created_at" >>= Json.asNum
  pure { emoji := e, user_name := u, created_at := c }

def ExportEntry.ofJson (j : Json) : Option ExportEntry := do
  let i ← j.getField "id" >>= Json.asNum
  let mt ← j.getField "message_type" >>= Json.asStr
  let mt ← MessageType.ofName mt
  let c ← j.getField "content" >>= Json.asStr
  let sn ← j.getField "sender_name" >>= Json.asStr
  let sr ← j.getField "sender_role" >>= Json.asStr
  let sr ← Role.ofName sr
  let fn ← j.getField "file_name" >>= Json.asOptStr
  let ed ← j.getField "is_edited" >>= Json.asBool
  let ca ← j.getField "created_at" >>= Json.asNum
  let rjs ← j.getField "reactions" >>= Json.asArr
  let rs ← mapMOption ReactionExport.ofJson rjs
  pure { id := i.toNat, message_type := mt, content := c, sender_name := sn,
         sender_role := sr, file_name := fn, is_edited := ed, created_at := ca,
         reactions := rs }

/-- Parse the message array back out of the export document. -/
def decodeMessages (j : Json) : Option (List ExportEntry) := do
  let ms ← j.getField "messages" >>= Json.asArr
  mapMOption ExportEntry.ofJson ms

theorem reactionExport_ofJson_toJson (r : ReactionExport) :
    ReactionExport.ofJson r.toJson = some r := rfl

theorem mapM_reactionExport_roundtrip (rs : List ReactionExport) :
    mapMOption ReactionExport.ofJson (rs.map ReactionExport.toJson) = some rs := by
  induction rs with
  | nil => rfl
  | cons r rs ih =>
    simp [mapMOption, reactionExport_ofJson_toJson, ih, bind, Option.bind, pure]

theorem role_ofName_toName (r : Role) : Role.ofName r.toName = some r := by
  cases r <;> rfl

theorem messageType_ofName_toName (t : MessageType) :
    MessageType.ofName t.toName = some t := by
  cases t <;> rfl

theorem exportEntry_ofJson_toJson (e : ExportEntry) :
    ExportEntry.ofJson e.toJson = some e := by
  obtain ⟨i, mt, c, sn, sr, fn, ed, ca, rs⟩ := e
  unfold ExportEntry.ofJson ExportEntry.toJson
  cases fn <;>
    simp [Json.getField, Json.asStr, Json.asNum, Json.asBool, Json.asArr, Json.asOptStr,
      List.lookup, bind, Option.bind, role_ofName_toName, messageType_ofName_toName,
      mapM_reactionExport_roundtrip, pure]

theorem mapM_exportEntry_roundtrip (es : List ExportEntry) :
    mapMOption ExportEntry.ofJson (es.map ExportEntry.toJson) = some es := by
  induction es with
  | nil => rfl
  | cons e es ih =>
    simp [mapMOption, exportEntry_ofJson_toJson, ih, bind, Option.bind, pure]

/-- C8: the JSON export of a room holds exactly the non-deleted in-range
messages, in creation order, and decoding the document recovers every
serialized entry — in particular each message's sender name, content,
creation time and reaction list — unchanged. -/
theorem export_json_round_trip (msgs : List ChatMessage)
    (reactions : List MessageReaction) (dF dT : Option Int) (exporter : String) :
    (exportMessages msgs dF dT).length = (msgs.filter (exportFilter dF dT)).length ∧
    List.Chain' (fun a b => a.created_at ≤ b.created_at) (exportMessages msgs dF dT) ∧
    decodeMessages (export_as_json ((exportMessages msgs dF dT).map
        (ChatMessageExportSerializer.serialize reactions)) exporter) =
      some ((exportMessages msgs dF dT).map
        (ChatMessageExportSerializer.serialize reactions)) ∧
    ((exportMessages msgs dF dT).map
        (ChatMessageExportSerializer.serialize reactions)).map
        (fun e => (e.sender_name, e.content, e.created_at, e.reactions)) =
      (exportMessages msgs dF dT).map (fun m =>
        (m.sender.full_name, m.content, m.created_at,
          (reactionsFor reactions m.id).map
            (fun r => ReactionExport.mk r.emoji r.user.full_name r.created_at))) := by
  refine ⟨?_, ?_, ?_, ?_⟩
  · exact length_sortByCreated _
  · exact sorted_sortByCreated _
  · unfold decodeMessages export_as_json
    simp [Json.getField, Json.asArr, List.lookup, bind, Option.bind]
    rw [← List.map_map]
    exact mapM_exportEntry_roundtrip _
  · rw [List.map_map]
    rfl

end Wazeen
